import Mathlib

set_option autoImplicit false

/-!
Verification of the EA Desktop Galaxy integration sources.

Each module of the repository (`local_games.py`, `lgames_manifests.py`,
`backend.py`, `plugin.py`) is shallowly embedded below: pure helpers become
Lean functions, stateful methods become explicit state-passing functions, and
network calls become oracle parameters describing the backend's reply.
-/

namespace EADesktop

/-- Values of the `galaxy.api.types.LocalGameState` flag: `None_ = 0`,
`Installed = 1`, `Running = 2` (a Python `Flag`, i.e. a bit mask carried as an
integer). -/
abbrev LocalGameState := Nat

def LocalGameState.none_ : LocalGameState := 0

def LocalGameState.installed : LocalGameState := 1

def LocalGameState.running : LocalGameState := 2

/-- Record `galaxy.api.types.LocalGame`: a game id paired with a
local-game-state flag. -/
structure LocalGame where
  game_id : String
  local_game_state : LocalGameState
deriving DecidableEq

namespace local_games

/-- Lookup in the Python dict `{x.game_id: x.local_game_state for x in l}`:
for a duplicated key the last write wins, as in a dict comprehension. -/
def dget (l : List LocalGame) (k : String) : Option LocalGameState :=
  ((l.filter (fun g => g.game_id == k)).map (fun g => g.local_game_state)).getLast?

/-- Key set of the Python dict `{x.game_id: x.local_game_state for x in l}`,
as a duplicate-free list.  (Python set/dict iteration order is unspecified, so
all results about `get_state_changes` are stated up to membership.) -/
def dkeys (l : List LocalGame) : List String :=
  (l.map (fun g => g.game_id)).dedup

/-- Function `local_games.get_state_changes(old_list, new_list)`: emits removed
games with state `None_`, added games with their entry from `new_list`, and
games in both dicts whose state changed with the new state. -/
def get_state_changes (old_list new_list : List LocalGame) : List LocalGame :=
  (((dkeys old_list).filter (fun k => !((dkeys new_list).contains k))).map
      (fun k => { game_id := k, local_game_state := LocalGameState.none_ }))
  ++ (new_list.filter (fun g =>
        (dkeys new_list).contains g.game_id && !((dkeys old_list).contains g.game_id)))
  ++ (((dkeys new_list).filter (fun k => (dkeys old_list).contains k)).filterMap (fun k =>
        if dget new_list k ≠ dget old_list k
        then (dget new_list k).map (fun s => { game_id := k, local_game_state := s })
        else none))

theorem mem_dkeys {l : List LocalGame} {k : String} :
    k ∈ dkeys l ↔ ∃ g ∈ l, g.game_id = k := by
  simp [dkeys, List.mem_dedup]

theorem dkeys_contains {l : List LocalGame} {k : String} :
    (dkeys l).contains k = true ↔ ∃ g ∈ l, g.game_id = k := by
  rw [show (dkeys l).contains k = (dkeys l).elem k from rfl, List.elem_iff]
  exact mem_dkeys

theorem dget_eq_none {l : List LocalGame} {k : String} :
    dget l k = none ↔ ¬ ∃ g ∈ l, g.game_id = k := by
  unfold dget
  rw [List.getLast?_eq_none_iff, List.map_eq_nil_iff, List.filter_eq_nil_iff]
  constructor
  · rintro h ⟨g, hg, hk⟩
    exact h g hg (by simp [hk])
  · intro h g hg hk
    exact h ⟨g, hg, by simpa using hk⟩

theorem dget_of_mem {l : List LocalGame}
    (h : (l.map (fun g => g.game_id)).Nodup) {g : LocalGame} (hg : g ∈ l) :
    dget l g.game_id = some g.local_game_state := by
  induction l with
  | nil => cases hg
  | cons x xs ih =>
    rw [List.map_cons, List.nodup_cons] at h
    rcases List.mem_cons.mp hg with rfl | hmem
    · have hfilter : xs.filter (fun g' => g'.game_id == g.game_id) = [] := by
        rw [List.filter_eq_nil_iff]
        intro a ha hk
        exact h.1 (List.mem_map.mpr ⟨a, ha, by simpa using hk⟩)
      simp [dget, List.filter_cons, hfilter]
    · have hne : (x.game_id == g.game_id) = false := by
        rw [beq_eq_false_iff_ne]
        intro hx
        exact h.1 (List.mem_map.mpr ⟨g, hmem, hx.symm⟩)
      have := ih h.2 hmem
      simpa [dget, List.filter_cons, hne] using this

theorem dkeys_not_contains {l : List LocalGame} {k : String} :
    ((dkeys l).contains k = false) ↔ ¬ ∃ g ∈ l, g.game_id = k := by
  rw [← dkeys_contains]
  cases h : (dkeys l).contains k <;> simp [h]

theorem mem_of_dget {l : List LocalGame} {k : String} {s : LocalGameState}
    (h : dget l k = some s) : ({ game_id := k, local_game_state := s } : LocalGame) ∈ l := by
  have hmem : s ∈ (l.filter (fun g => g.game_id == k)).map (fun g => g.local_game_state) :=
    List.mem_of_mem_getLast? h
  rcases List.mem_map.mp hmem with ⟨g, hg, hs⟩
  rcases List.mem_filter.mp hg with ⟨hgl, hk⟩
  have hk' : g.game_id = k := by simpa using hk
  cases g
  cases hk'
  cases hs
  exact hgl

theorem mem_iff_dget {l : List LocalGame} (h : (l.map (fun g => g.game_id)).Nodup)
    {k : String} {s : LocalGameState} :
    ({ game_id := k, local_game_state := s } : LocalGame) ∈ l ↔ dget l k = some s :=
  ⟨fun hg => dget_of_mem h hg, mem_of_dget⟩

theorem dget_isSome_iff {l : List LocalGame} {k : String} :
    (∃ s, dget l k = some s) ↔ ∃ g ∈ l, g.game_id = k := by
  constructor
  · rintro ⟨s, hs⟩
    exact ⟨_, mem_of_dget hs, rfl⟩
  · intro hp
    cases hd : dget l k with
    | none => exact absurd hp (dget_eq_none.mp hd)
    | some s => exact ⟨s, rfl⟩

theorem mem_removed_part {o n : List LocalGame} {id : String} {s : LocalGameState} :
    ({ game_id := id, local_game_state := s } : LocalGame) ∈
      (((dkeys o).filter (fun k => !((dkeys n).contains k))).map
        (fun k => ({ game_id := k, local_game_state := LocalGameState.none_ } : LocalGame))) ↔
    (∃ g ∈ o, g.game_id = id) ∧ ¬ (∃ g ∈ n, g.game_id = id) ∧ s = LocalGameState.none_ := by
  rw [List.mem_map]
  constructor
  · rintro ⟨k, hk, hmk⟩
    rcases List.mem_filter.mp hk with ⟨hko, hkn⟩
    have h1 : k = id ∧ LocalGameState.none_ = s := by
      constructor
      · exact congrArg LocalGame.game_id hmk
      · exact congrArg LocalGame.local_game_state hmk
    rcases h1 with ⟨rfl, rfl⟩
    refine ⟨mem_dkeys.mp hko, ?_, rfl⟩
    exact dkeys_not_contains.mp (by simpa using hkn)
  · rintro ⟨hmo, hmn, rfl⟩
    refine ⟨id, List.mem_filter.mpr ⟨mem_dkeys.mpr hmo, ?_⟩, rfl⟩
    rw [dkeys_not_contains.mpr hmn]
    rfl

theorem mem_added_part {o n : List LocalGame} {id : String} {s : LocalGameState}
    (hn : (n.map (fun g => g.game_id)).Nodup) :
    ({ game_id := id, local_game_state := s } : LocalGame) ∈
      (n.filter (fun g =>
        (dkeys n).contains g.game_id && !((dkeys o).contains g.game_id))) ↔
    ¬ (∃ g ∈ o, g.game_id = id) ∧ dget n id = some s := by
  rw [List.mem_filter]
  constructor
  · rintro ⟨hmem, hcond⟩
    rcases Bool.and_eq_true_iff.mp hcond with ⟨-, hno⟩
    exact ⟨dkeys_not_contains.mp (by simpa using hno), (mem_iff_dget hn).mp hmem⟩
  · rintro ⟨hno, hd⟩
    have hmem := mem_of_dget hd
    refine ⟨hmem, ?_⟩
    have h1 : (dkeys n).contains id = true :=
      dkeys_contains.mpr ⟨_, hmem, rfl⟩
    have h2 : (dkeys o).contains id = false := dkeys_not_contains.mpr hno
    rw [h1, h2]
    rfl

theorem mem_changed_part {o n : List LocalGame} {id : String} {s : LocalGameState} :
    ({ game_id := id, local_game_state := s } : LocalGame) ∈
      (((dkeys n).filter (fun k => (dkeys o).contains k)).filterMap (fun k =>
        if dget n k ≠ dget o k
        then (dget n k).map (fun s' => ({ game_id := k, local_game_state := s' } : LocalGame))
        else none)) ↔
    ∃ s₀, dget o id = some s₀ ∧ dget n id = some s ∧ s₀ ≠ s := by
  rw [List.mem_filterMap]
  constructor
  · rintro ⟨k, hk, hfk⟩
    rcases List.mem_filter.mp hk with ⟨hkn, hko⟩
    by_cases hne : dget n k ≠ dget o k
    · rw [if_pos hne] at hfk
      rcases Option.map_eq_some'.mp hfk with ⟨s', hs', heq⟩
      have hkid : k = id := congrArg LocalGame.game_id heq
      have hsid : s' = s := congrArg LocalGame.local_game_state heq
      subst hkid; subst hsid
      rcases dget_isSome_iff.mpr (dkeys_contains.mp hko) with ⟨s₀, hs₀⟩
      refine ⟨s₀, hs₀, hs', ?_⟩
      intro hss
      exact hne (by rw [hs', hs₀, hss])
    · rw [if_neg hne] at hfk
      cases hfk
  · rintro ⟨s₀, ho, hn', hss⟩
    have hmemn : id ∈ dkeys n := mem_dkeys.mpr ⟨_, mem_of_dget hn', rfl⟩
    have hmemo : (dkeys o).contains id = true :=
      dkeys_contains.mpr ⟨_, mem_of_dget ho, rfl⟩
    refine ⟨id, List.mem_filter.mpr ⟨hmemn, hmemo⟩, ?_⟩
    have hne : dget n id ≠ dget o id := by
      rw [hn', ho]
      intro hc
      exact hss (by injection hc with h; exact h.symm)
    rw [if_pos hne, hn']
    rfl

theorem filterMap_keys_sublist (f : String → Option LocalGame)
    (hf : ∀ k g, f k = some g → g.game_id = k) :
    ∀ ks : List String, ((ks.filterMap f).map (fun g => g.game_id)).Sublist ks := by
  intro ks
  induction ks with
  | nil => simp
  | cons k ks ih =>
    cases hfk : f k with
    | none =>
      rw [List.filterMap_cons, hfk]
      exact ih.cons k
    | some g =>
      rw [List.filterMap_cons, hfk, List.map_cons, hf k g hfk]
      exact ih.cons₂ k

theorem keys_nodup (o n : List LocalGame)
    (hn : (n.map (fun g => g.game_id)).Nodup) :
    ((get_state_changes o n).map (fun g => g.game_id)).Nodup := by
  rw [get_state_changes, List.map_append, List.map_append]
  have hnd_o : (dkeys o).Nodup := List.nodup_dedup _
  have hnd_n : (dkeys n).Nodup := List.nodup_dedup _
  have hk1 :
      ((((dkeys o).filter (fun k => !((dkeys n).contains k))).map
        (fun k => ({ game_id := k, local_game_state := LocalGameState.none_ } : LocalGame))).map
          (fun g => g.game_id)) =
      (dkeys o).filter (fun k => !((dkeys n).contains k)) := by
    rw [List.map_map]
    exact List.map_id' _
  have hnd1 : ((dkeys o).filter (fun k => !((dkeys n).contains k))).Nodup :=
    hnd_o.filter _
  have hsub2 :
      ((n.filter (fun g =>
        (dkeys n).contains g.game_id && !((dkeys o).contains g.game_id))).map
          (fun g => g.game_id)).Sublist (n.map (fun g => g.game_id)) :=
    (List.filter_sublist n).map _
  have hnd2 := hn.sublist hsub2
  have hsub3 :
      ((((dkeys n).filter (fun k => (dkeys o).contains k)).filterMap (fun k =>
          if dget n k ≠ dget o k
          then (dget n k).map (fun s => ({ game_id := k, local_game_state := s } : LocalGame))
          else none)).map (fun g => g.game_id)).Sublist
        ((dkeys n).filter (fun k => (dkeys o).contains k)) := by
    apply filterMap_keys_sublist
    intro k g hkg
    by_cases hne : dget n k ≠ dget o k
    · rw [if_pos hne] at hkg
      rcases Option.map_eq_some'.mp hkg with ⟨s', -, heq⟩
      exact (congrArg LocalGame.game_id heq).symm
    · rw [if_neg hne] at hkg
      cases hkg
  have hnd3 := (hnd_n.filter _).sublist hsub3
  rw [hk1]
  rw [List.nodup_append, List.nodup_append]
  have hA_not_new : ∀ a ∈ (dkeys o).filter (fun k => !((dkeys n).contains k)),
      (dkeys n).contains a = false := by
    intro a ha
    rcases List.mem_filter.mp ha with ⟨-, hno⟩
    cases h : (dkeys n).contains a with
    | false => rfl
    | true => rw [h] at hno; cases hno
  refine ⟨⟨hnd1, hnd2, ?_⟩, hnd3, ?_⟩
  · intro a ha1 ha2
    have hnotn := hA_not_new a ha1
    rcases List.mem_map.mp ha2 with ⟨g, hg, rfl⟩
    have hmemn : g.game_id ∈ dkeys n :=
      mem_dkeys.mpr ⟨g, (List.mem_filter.mp hg).1, rfl⟩
    rw [dkeys_contains.mpr (mem_dkeys.mp hmemn)] at hnotn
    cases hnotn
  · intro a ha12 ha3
    have h3 := List.mem_filter.mp (hsub3.subset ha3)
    rcases List.mem_append.mp ha12 with h1 | h2
    · have hnotn := hA_not_new a h1
      rw [dkeys_contains.mpr (mem_dkeys.mp h3.1)] at hnotn
      cases hnotn
    · rcases List.mem_map.mp h2 with ⟨g, hg, rfl⟩
      rcases List.mem_filter.mp hg with ⟨-, hcond⟩
      rcases Bool.and_eq_true_iff.mp hcond with ⟨-, hno⟩
      have hyes : (dkeys o).contains g.game_id = true := h3.2
      rw [hyes] at hno
      cases hno

/-- **C1**: `get_state_changes(old, new)` emits, for distinct-keyed snapshots,
exactly one `(id, None_)` entry for each id in `old` but not `new`, one entry
with its new state for each id in `new` but not `old`, one entry with the new
state for each id in both whose state changed, and nothing for unchanged ids;
in particular the old snapshot `{A: Installed, B: Running}` against the new
snapshot `{B: Installed, C: Installed}` yields exactly
`{A: None_, B: Installed, C: Installed}`. -/
theorem get_state_changes_diff_policy (old_list new_list : List LocalGame)
    (_ho : (old_list.map (fun g => g.game_id)).Nodup)
    (hn : (new_list.map (fun g => g.game_id)).Nodup) :
    (∀ (id : String) (s : LocalGameState),
      ({ game_id := id, local_game_state := s } : LocalGame) ∈
          get_state_changes old_list new_list ↔
        ((∃ g ∈ old_list, g.game_id = id) ∧ ¬ (∃ g ∈ new_list, g.game_id = id)
            ∧ s = LocalGameState.none_)
        ∨ (¬ (∃ g ∈ old_list, g.game_id = id) ∧ dget new_list id = some s)
        ∨ (∃ s₀, dget old_list id = some s₀ ∧ dget new_list id = some s ∧ s₀ ≠ s))
    ∧ ((get_state_changes old_list new_list).map (fun g => g.game_id)).Nodup
    ∧ (get_state_changes
        [{ game_id := "A", local_game_state := LocalGameState.installed },
         { game_id := "B", local_game_state := LocalGameState.running }]
        [{ game_id := "B", local_game_state := LocalGameState.installed },
         { game_id := "C", local_game_state := LocalGameState.installed }]).Perm
        [{ game_id := "A", local_game_state := LocalGameState.none_ },
         { game_id := "B", local_game_state := LocalGameState.installed },
         { game_id := "C", local_game_state := LocalGameState.installed }] := by
  refine ⟨?_, keys_nodup old_list new_list hn, ?_⟩
  · intro id s
    rw [get_state_changes, List.mem_append, List.mem_append, or_assoc]
    rw [mem_removed_part, mem_added_part hn, mem_changed_part]
  · decide

/-- Witness for C1: the theorem applied to the spec's concrete snapshots. -/
theorem get_state_changes_diff_policy_witness :
    (({ game_id := "C", local_game_state := LocalGameState.installed } : LocalGame) ∈
      get_state_changes
        [{ game_id := "A", local_game_state := LocalGameState.installed },
         { game_id := "B", local_game_state := LocalGameState.running }]
        [{ game_id := "B", local_game_state := LocalGameState.installed },
         { game_id := "C", local_game_state := LocalGameState.installed }]) ∧
    ((get_state_changes
        [{ game_id := "A", local_game_state := LocalGameState.installed },
         { game_id := "B", local_game_state := LocalGameState.running }]
        [{ game_id := "B", local_game_state := LocalGameState.installed },
         { game_id := "C", local_game_state := LocalGameState.installed }]).map
      (fun g => g.game_id)).Nodup := by
  have h := get_state_changes_diff_policy
    [{ game_id := "A", local_game_state := LocalGameState.installed },
     { game_id := "B", local_game_state := LocalGameState.running }]
    [{ game_id := "B", local_game_state := LocalGameState.installed },
     { game_id := "C", local_game_state := LocalGameState.installed }]
    (by decide) (by decide)
  exact ⟨(h.1 "C" LocalGameState.installed).mpr (Or.inr (Or.inl (by decide))), h.2.1⟩

end local_games

namespace lgames_manifests

/-- Lookup in the Python dict `{x.game_id: x.local_game_state for x in l}`
built by `lgames_manifests.get_state_changes` (last write wins). -/
def dget (l : List LocalGame) (k : String) : Option LocalGameState :=
  ((l.filter (fun g => g.game_id == k)).map (fun g => g.local_game_state)).getLast?

/-- Key set of the Python dict `{x.game_id: x.local_game_state for x in l}`
built by `lgames_manifests.get_state_changes`. -/
def dkeys (l : List LocalGame) : List String :=
  (l.map (fun g => g.game_id)).dedup

/-- Function `lgames_manifests.get_state_changes(old_list, new_list)`: the
second copy of the diff routine, line for line the same as the one in
`local_games.py`. -/
def get_state_changes (old_list new_list : List LocalGame) : List LocalGame :=
  (((dkeys old_list).filter (fun k => !((dkeys new_list).contains k))).map
      (fun k => { game_id := k, local_game_state := LocalGameState.none_ }))
  ++ (new_list.filter (fun g =>
        (dkeys new_list).contains g.game_id && !((dkeys old_list).contains g.game_id)))
  ++ (((dkeys new_list).filter (fun k => (dkeys old_list).contains k)).filterMap (fun k =>
        if dget new_list k ≠ dget old_list k
        then (dget new_list k).map (fun s => { game_id := k, local_game_state := s })
        else none))

end lgames_manifests

/-- **C10**: the diff implementation in `local_games.py` and the one in
`lgames_manifests.py` are extensionally equal: on every pair of old and new
local-game lists they return the same notifications. -/
theorem get_state_changes_variants_agree :
    ∀ old_list new_list : List LocalGame,
      local_games.get_state_changes old_list new_list =
        lgames_manifests.get_state_changes old_list new_list :=
  fun _ _ => rfl


/-- Lookup `d.get(k)` in a Python dict modelled as an association list with at
most one entry per key. -/
def dictGet {α : Type} (d : List (String × α)) (k : String) : Option α :=
  d.lookup k

/-- Assignment `d[k] = v` in a Python dict modelled as an association list:
the binding for `k` is replaced if present and added otherwise (no embedded
function relies on the iteration order of a dict it mutates). -/
def dictSet {α : Type} (d : List (String × α)) (k : String) (v : α) : List (String × α) :=
  (k, v) :: d.filter (fun p => !(p.1 == k))

theorem lookup_filter_ne {α : Type} (d : List (String × α)) (k k' : String)
    (h : (k' == k) = false) :
    (d.filter (fun p => !(p.1 == k))).lookup k' = d.lookup k' := by
  induction d with
  | nil => rfl
  | cons p d ih =>
    rcases p with ⟨pk, pv⟩
    by_cases hp : pk = k
    · subst hp
      rw [List.filter_cons_of_neg (by simp)]
      rw [ih, List.lookup_cons, h]
    · have hb : (pk == k) = false := beq_eq_false_iff_ne.mpr hp
      simp only [List.filter_cons, hb, Bool.not_false, if_true]
      rw [List.lookup_cons, List.lookup_cons]
      cases hkk : (k' == pk)
      · exact ih
      · rfl

theorem dictGet_dictSet {α : Type} (d : List (String × α)) (k k' : String) (v : α) :
    dictGet (dictSet d k v) k' = if k' = k then some v else dictGet d k' := by
  unfold dictGet dictSet
  rw [List.lookup_cons]
  by_cases hk : k' = k
  · subst hk
    simp
  · have hb : (k' == k) = false := beq_eq_false_iff_ne.mpr hk
    rw [hb, if_neg hk]
    exact lookup_filter_ne d k k' hb

/-- Record `galaxy.api.types.GameTime`: total minutes played and an optional
last-played Unix timestamp for one game id. -/
structure GameTime where
  game_id : String
  time_played : Nat
  last_played_time : Option Int
deriving DecidableEq

namespace plugin

/-- Inner helper `get_cached_game_times` of
`OriginPlugin._get_game_times_for_master_title`: returns `none` exactly when a
fresh entry should be retrieved from the backend. -/
def get_cached_game_times (game_time_cache : List (String × GameTime))
    (game_id : String) (lastplayed_time : Option Int) : Option GameTime :=
  match lastplayed_time with
  | none => none
  | some lp =>
    match dictGet game_time_cache game_id with
    | none => none
    | some cached =>
      match cached.last_played_time with
      | none => none
      | some c => if lp > c then none else some cached

/-- Result of one `_get_game_times_for_master_title` call: the returned
`GameTime`, the game-time cache and dirty flag afterwards, and whether the
backend was queried. -/
structure GameTimesResult where
  result : GameTime
  game_time_cache : List (String × GameTime)
  persistent_cache_updated : Bool
  fetched : Bool
deriving DecidableEq

/-- Method `OriginPlugin._get_game_times_for_master_title(game_id, game_slug,
lastplayed_time)`.  `backend_game_time` is the oracle for
`OriginBackendClient.get_game_time(game_slug)` and yields
`(total_play_time, last_played_time)`. -/
def get_game_times_for_master_title
    (game_time_cache : List (String × GameTime)) (persistent_cache_updated : Bool)
    (game_id : String) (game_slug : String) (lastplayed_time : Option Int)
    (backend_game_time : String → Nat × Option Int) : GameTimesResult :=
  match get_cached_game_times game_time_cache game_id lastplayed_time with
  | some cached =>
    { result := cached, game_time_cache := game_time_cache,
      persistent_cache_updated := persistent_cache_updated, fetched := false }
  | none =>
    { result :=
        { game_id := game_id, time_played := (backend_game_time game_slug).1,
          last_played_time := (backend_game_time game_slug).2 },
      game_time_cache := dictSet game_time_cache game_id
        { game_id := game_id, time_played := (backend_game_time game_slug).1,
          last_played_time := (backend_game_time game_slug).2 },
      persistent_cache_updated := true, fetched := true }

theorem get_cached_game_times_eq_some {game_time_cache : List (String × GameTime)}
    {game_id : String} {lastplayed_time : Option Int} {gt : GameTime} :
    get_cached_game_times game_time_cache game_id lastplayed_time = some gt ↔
      ∃ lp c, lastplayed_time = some lp ∧ dictGet game_time_cache game_id = some gt ∧
        gt.last_played_time = some c ∧ lp ≤ c := by
  unfold get_cached_game_times
  cases lastplayed_time with
  | none => simp
  | some lp =>
    cases hc : dictGet game_time_cache game_id with
    | none => simp [hc]
    | some cached =>
      cases hl : cached.last_played_time with
      | none =>
        simp only [hl, hc, Option.some.injEq]
        constructor
        · intro h
          cases h
        · rintro ⟨lp', c, hlp, rfl, hl', -⟩
          rw [hl] at hl'
          cases hl'
      | some c =>
        by_cases hgt : lp > c
        · simp only [hl, hc, if_pos hgt, Option.some.injEq]
          constructor
          · intro h
            cases h
          · rintro ⟨lp', c', hlp, rfl, hc', hle⟩
            rw [hl] at hc'
            cases hc'
            cases hlp
            omega
        · simp only [hl, hc, if_neg hgt, Option.some.injEq]
          constructor
          · rintro rfl
            exact ⟨lp, c, rfl, rfl, hl, by omega⟩
          · rintro ⟨lp', c', hlp, rfl, -, -⟩
            rfl

/-- **C2**: `_get_game_times_for_master_title` answers from the play-time
cache without a backend fetch precisely when a cached entry exists, its
last-played time is known, and the remote last-played time is known and not
greater than the cached one; in every other case (including an unknown remote
last-played time) it queries the backend, returns the fresh record, stores it
in the cache and marks the persistent cache dirty. -/
theorem get_game_times_freshness
    (game_time_cache : List (String × GameTime)) (persistent_cache_updated : Bool)
    (game_id game_slug : String) (lastplayed_time : Option Int)
    (backend_game_time : String → Nat × Option Int) :
    ((get_game_times_for_master_title game_time_cache persistent_cache_updated
        game_id game_slug lastplayed_time backend_game_time).fetched = false ↔
      ∃ lp cached c, lastplayed_time = some lp ∧
        dictGet game_time_cache game_id = some cached ∧
        cached.last_played_time = some c ∧ lp ≤ c)
    ∧ ((get_game_times_for_master_title game_time_cache persistent_cache_updated
        game_id game_slug lastplayed_time backend_game_time).fetched = false →
      dictGet game_time_cache game_id =
        some (get_game_times_for_master_title game_time_cache persistent_cache_updated
          game_id game_slug lastplayed_time backend_game_time).result ∧
      (get_game_times_for_master_title game_time_cache persistent_cache_updated
        game_id game_slug lastplayed_time backend_game_time).game_time_cache =
          game_time_cache ∧
      (get_game_times_for_master_title game_time_cache persistent_cache_updated
        game_id game_slug lastplayed_time backend_game_time).persistent_cache_updated =
          persistent_cache_updated)
    ∧ ((get_game_times_for_master_title game_time_cache persistent_cache_updated
        game_id game_slug lastplayed_time backend_game_time).fetched = true →
      (get_game_times_for_master_title game_time_cache persistent_cache_updated
        game_id game_slug lastplayed_time backend_game_time).result =
        { game_id := game_id, time_played := (backend_game_time game_slug).1,
          last_played_time := (backend_game_time game_slug).2 } ∧
      dictGet (get_game_times_for_master_title game_time_cache persistent_cache_updated
        game_id game_slug lastplayed_time backend_game_time).game_time_cache game_id =
        some { game_id := game_id, time_played := (backend_game_time game_slug).1,
               last_played_time := (backend_game_time game_slug).2 } ∧
      (get_game_times_for_master_title game_time_cache persistent_cache_updated
        game_id game_slug lastplayed_time backend_game_time).persistent_cache_updated =
          true) := by
  cases hcc : get_cached_game_times game_time_cache game_id lastplayed_time with
  | some cached =>
    rcases get_cached_game_times_eq_some.mp hcc with ⟨lp, c, hlp, hget, hl, hle⟩
    refine ⟨?_, ?_, ?_⟩
    · simp only [get_game_times_for_master_title, hcc]
      exact iff_of_true trivial ⟨lp, cached, c, hlp, hget, hl, hle⟩
    · intro _
      simp only [get_game_times_for_master_title, hcc]
      exact ⟨hget, trivial, trivial⟩
    · intro hf
      simp only [get_game_times_for_master_title, hcc] at hf
      cases hf
  | none =>
    refine ⟨?_, ?_, ?_⟩
    · simp only [get_game_times_for_master_title, hcc]
      constructor
      · intro h
        cases h
      · rintro ⟨lp, cached, c, hlp, hget, hl, hle⟩
        have : get_cached_game_times game_time_cache game_id lastplayed_time = some cached :=
          get_cached_game_times_eq_some.mpr ⟨lp, c, hlp, hget, hl, hle⟩
        rw [hcc] at this
        cases this
    · intro hf
      simp only [get_game_times_for_master_title, hcc] at hf
      cases hf
    · intro _
      simp only [get_game_times_for_master_title, hcc]
      refine ⟨trivial, ?_, trivial⟩
      rw [dictGet_dictSet]
      exact if_pos rfl

/-- Witness for C2: a cached entry last played at 100 is served from the cache
when the remote last-played time is 50, and an absent remote last-played time
forces a backend fetch. -/
theorem get_game_times_freshness_witness :
    ((get_game_times_for_master_title
        [("Origin.OFR.50.0001", { game_id := "Origin.OFR.50.0001", time_played := 10,
                                  last_played_time := some 100 })] false
        "Origin.OFR.50.0001" "the-sims-4" (some 50) (fun _ => (0, none))).fetched = false)
    ∧ ((get_game_times_for_master_title
        [("Origin.OFR.50.0001", { game_id := "Origin.OFR.50.0001", time_played := 10,
                                  last_played_time := some 100 })] false
        "Origin.OFR.50.0001" "the-sims-4" none (fun _ => (0, none))).fetched = true) := by
  constructor
  · exact (get_game_times_freshness
      [("Origin.OFR.50.0001", { game_id := "Origin.OFR.50.0001", time_played := 10,
                                last_played_time := some 100 })] false
      "Origin.OFR.50.0001" "the-sims-4" (some 50) (fun _ => (0, none))).1.mpr
      ⟨50, { game_id := "Origin.OFR.50.0001", time_played := 10, last_played_time := some 100 },
        100, rfl, rfl, rfl, by omega⟩
  · have h := (get_game_times_freshness
      [("Origin.OFR.50.0001", { game_id := "Origin.OFR.50.0001", time_played := 10,
                                last_played_time := some 100 })] false
      "Origin.OFR.50.0001" "the-sims-4" none (fun _ => (0, none))).1
    cases hf : (get_game_times_for_master_title
        [("Origin.OFR.50.0001", { game_id := "Origin.OFR.50.0001", time_played := 10,
                                  last_played_time := some 100 })] false
        "Origin.OFR.50.0001" "the-sims-4" none (fun _ => (0, none))).fetched
    · rcases h.mp hf with ⟨lp, cached, c, hlp, -⟩
      cases hlp
    · rfl

end plugin

/-- Python `str.split(sep)` for a one-character separator, acting on the
character list of the string: `"a#b".split("#") = ["a", "b"]`,
`"ab".split("#") = ["ab"]`, `"".split("#") = [""]`. -/
def pySplitCh (c : Char) : List Char → List (List Char)
  | [] => [[]]
  | x :: xs =>
    if x = c then [] :: pySplitCh c xs
    else
      match pySplitCh c xs with
      | [] => [[x]]
      | seg :: rest => (x :: seg) :: rest

/-- Python substring test `sub in s`. -/
def pyContains (s sub : String) : Bool := decide (sub.data <:+: s.data)

namespace backend

/-- Exception taxonomy around `AuthenticatedHttpClient`: the named
`galaxy.api.errors` classes used in `backend.py`, the `IndexError` that
`_get_access_token` can raise while slicing the `Location` header, and a
constructor for any other `Exception`. -/
inductive PyErr where
  | accessDenied (msg : String)
  | authenticationRequired (msg : String)
  | backendNotAvailable
  | backendTimeout
  | backendError
  | networkError
  | indexError
  | otherError
deriving DecidableEq

/-- Membership in the clause
`except (BackendNotAvailable, BackendTimeout, BackendError, NetworkError)`
of `_refresh_token`. -/
def PyErr.isTransient : PyErr → Bool
  | .backendNotAvailable => true
  | .backendTimeout => true
  | .backendError => true
  | .networkError => true
  | _ => false

/-- Membership in the clause `except (AuthenticationRequired, AccessDenied)`
of `AuthenticatedHttpClient.get`. -/
def PyErr.isAuthFailure : PyErr → Bool
  | .accessDenied _ => true
  | .authenticationRequired _ => true
  | _ => false

/-- Mutable fields of `AuthenticatedHttpClient` that the session flow touches:
the cookie jar, `_access_token`, a counter of auth-lost callback invocations
and a counter of `_save_lats` calls. -/
structure ClientState where
  cookies : List (String × String)
  access_token : Option String
  auth_lost_calls : Nat
  saved_lats : Nat
deriving DecidableEq

/-- State set up by `AuthenticatedHttpClient.__init__`: no token held. -/
def initialClient : ClientState :=
  { cookies := [], access_token := none, auth_lost_calls := 0, saved_lats := 0 }

/-- Token slicing `data.split("#")[1].split("=")[1].split("&")[0]` from
`_get_access_token`; `none` models the `IndexError` raised when an index is
out of range. -/
def extract_access_token (location : String) : Option String :=
  match (pySplitCh '#' location.data).get? 1 with
  | none => none
  | some frag =>
    match (pySplitCh '=' frag).get? 1 with
    | none => none
    | some seg => some (String.mk ((pySplitCh '&' seg).headD []))

/-- Merge semantics of `CookieJar.update_cookies`: each incoming cookie
replaces the one with the same name. -/
def updateCookies (jar new : List (String × String)) : List (String × String) :=
  new.foldl (fun j p => dictSet j p.1 p.2) jar

/-- Method `AuthenticatedHttpClient._get_access_token`.  The oracle `resp` is
the outcome of the probe `GET` to `accounts.ea.com/connect/auth`: an
exception, or the `Location` response header.  Returns the client state and
the method's outcome. -/
def get_access_token (st : ClientState) (resp : Except PyErr String) :
    ClientState × Except PyErr Unit :=
  match resp with
  | .error e => (st, .error e)
  | .ok location =>
    if pyContains location "access_token" then
      match extract_access_token location with
      | some tok => ({ st with access_token := some tok }, .ok ())
      | none => (st, .error .indexError)
    else if pyContains location "error=login_required" then
      (st, .error (.authenticationRequired "Error parsing access token. Must reauthenticate."))
    else
      ({ st with saved_lats := st.saved_lats + 1 }, .ok ())

/-- Method `AuthenticatedHttpClient.authenticate(cookies)`: installs the
cookies into the jar, then runs `_get_access_token`. -/
def authenticate (st : ClientState) (cookies : List (String × String))
    (resp : Except PyErr String) : ClientState × Except PyErr Unit :=
  get_access_token { st with cookies := updateCookies st.cookies cookies } resp

/-- Method `AuthenticatedHttpClient.is_authenticated`. -/
def is_authenticated (st : ClientState) : Bool :=
  st.access_token.isSome

/-- Method `AuthenticatedHttpClient._refresh_token`: runs `_get_access_token`;
the four transient backend failures propagate unchanged, every other failure
clears the token, fires the auth-lost callback and is rethrown as
`AccessDenied("Failed to refresh token")`. -/
def refresh_token (st : ClientState) (resp : Except PyErr String) :
    ClientState × Except PyErr Unit :=
  match get_access_token st resp with
  | (st', .ok ()) => (st', .ok ())
  | (st', .error e) =>
    if e.isTransient then (st', .error e)
    else ({ st' with access_token := none, auth_lost_calls := st'.auth_lost_calls + 1 },
          .error (.accessDenied "Failed to refresh token"))

theorem get_access_token_state_of_error {st : ClientState} {resp : Except PyErr String}
    {e : PyErr} (h : (get_access_token st resp).2 = .error e) :
    (get_access_token st resp).1 = st := by
  cases resp with
  | error e' => rfl
  | ok location =>
    by_cases h1 : pyContains location "access_token" = true
    · cases hx : extract_access_token location with
      | some tok =>
        exfalso
        simp [get_access_token, h1, hx] at h
      | none => simp [get_access_token, h1, hx]
    · by_cases h2 : pyContains location "error=login_required" = true
      · simp [get_access_token, h1, h2]
      · exfalso
        simp [get_access_token, h1, h2] at h

/-- **C5**: when `_get_access_token` fails inside `_refresh_token`, a failure
classified as transient (backend unavailable, backend timeout, backend error,
network error) propagates unchanged and leaves the stored access token (and
the whole client state) intact, while every other failure clears the access
token, invokes the auth-lost callback once, and surfaces to the caller as
`AccessDenied`. -/
theorem refresh_token_failure_policy (st : ClientState) (resp : Except PyErr String)
    (e : PyErr) (hfail : (get_access_token st resp).2 = .error e) :
    (e.isTransient = true → refresh_token st resp = (st, .error e))
    ∧ (e.isTransient = false →
        refresh_token st resp =
          ({ st with access_token := none, auth_lost_calls := st.auth_lost_calls + 1 },
           .error (.accessDenied "Failed to refresh token"))) := by
  have hst := get_access_token_state_of_error hfail
  have hget : get_access_token st resp = (st, .error e) := Prod.ext hst hfail
  constructor
  · intro ht
    simp [refresh_token, hget, ht]
  · intro ht
    simp [refresh_token, hget, ht]

/-- Witness for C5: a timeout of the probe request propagates unchanged from
`_refresh_token`, while an `authenticationRequired` failure is converted to
`AccessDenied` with the token cleared and the auth-lost callback fired. -/
theorem refresh_token_failure_policy_witness :
    (refresh_token
        { cookies := [], access_token := some "tok", auth_lost_calls := 0, saved_lats := 0 }
        (.error .backendTimeout) =
      ({ cookies := [], access_token := some "tok", auth_lost_calls := 0, saved_lats := 0 },
       .error .backendTimeout))
    ∧ (refresh_token
        { cookies := [], access_token := some "tok", auth_lost_calls := 0, saved_lats := 0 }
        (.ok "qrc:/html/login_successful.html?error=login_required") =
      ({ cookies := [], access_token := none, auth_lost_calls := 1, saved_lats := 0 },
       .error (.accessDenied "Failed to refresh token"))) := by
  constructor
  · exact (refresh_token_failure_policy
      { cookies := [], access_token := some "tok", auth_lost_calls := 0, saved_lats := 0 }
      (.error .backendTimeout) .backendTimeout rfl).1 rfl
  · exact (refresh_token_failure_policy
      { cookies := [], access_token := some "tok", auth_lost_calls := 0, saved_lats := 0 }
      (.ok "qrc:/html/login_successful.html?error=login_required")
      (.authenticationRequired "Error parsing access token. Must reauthenticate.")
      rfl).2 rfl

/-- Result of one `AuthenticatedHttpClient.get` call: its outcome, the client
state afterwards, the number of `_authorized_get` attempts made and the number
of `_refresh_token` calls made. -/
structure GetResult where
  outcome : Except PyErr Nat
  state : ClientState
  calls : Nat
  refreshes : Nat

/-- Python truthiness of `self._access_token` as tested by
`if not self._access_token` (both `None` and the empty string are falsy). -/
def tokenTruthy : Option String → Bool
  | none => false
  | some t => !t.isEmpty

/-- Method `AuthenticatedHttpClient.get`: raises `AccessDenied` without any
call when no token is held; otherwise performs `_authorized_get` (outcome
oracle `call1`) and, on `AuthenticationRequired`/`AccessDenied`, runs one
`_refresh_token` (probe oracle `resp`) followed by one retry (outcome oracle
`call2`) whose result — success or failure — is returned; an error of the
refresh itself propagates. -/
def http_get (st : ClientState) (call1 call2 : Except PyErr Nat)
    (resp : Except PyErr String) : GetResult :=
  if !(tokenTruthy st.access_token) then
    { outcome := .error (.accessDenied "No access token"), state := st,
      calls := 0, refreshes := 0 }
  else
    match call1 with
    | .ok r => { outcome := .ok r, state := st, calls := 1, refreshes := 0 }
    | .error e =>
      if e.isAuthFailure then
        match refresh_token st resp with
        | (st', .ok _) => { outcome := call2, state := st', calls := 2, refreshes := 1 }
        | (st', .error er) =>
          { outcome := .error er, state := st', calls := 1, refreshes := 1 }
      else
        { outcome := .error e, state := st, calls := 1, refreshes := 0 }

/-- **C6**: `AuthenticatedHttpClient.get` raises `AccessDenied` immediately
with no call when no (truthy) access token is held; with a token it always
performs the call; a successful first call is returned with no refresh; and a
first call failing with `AccessDenied`/`AuthenticationRequired` triggers
exactly one token refresh and — when the refresh succeeds — exactly one retry
whose outcome, success or failure, is what the caller sees. -/
theorem http_get_retry_policy (st : ClientState) (call1 call2 : Except PyErr Nat)
    (resp : Except PyErr String) :
    (tokenTruthy st.access_token = false →
      http_get st call1 call2 resp =
        { outcome := .error (.accessDenied "No access token"), state := st,
          calls := 0, refreshes := 0 })
    ∧ (tokenTruthy st.access_token = true → 1 ≤ (http_get st call1 call2 resp).calls)
    ∧ (∀ r : Nat, tokenTruthy st.access_token = true → call1 = .ok r →
        http_get st call1 call2 resp =
          { outcome := .ok r, state := st, calls := 1, refreshes := 0 })
    ∧ (∀ e : PyErr, tokenTruthy st.access_token = true → call1 = .error e →
        e.isAuthFailure = true →
        (http_get st call1 call2 resp).refreshes = 1
        ∧ ((refresh_token st resp).2 = .ok () →
            (http_get st call1 call2 resp).calls = 2
            ∧ (http_get st call1 call2 resp).outcome = call2)) := by
  refine ⟨?_, ?_, ?_, ?_⟩
  · intro hf
    simp [http_get, hf]
  · intro ht
    simp only [http_get, ht, Bool.not_true, Bool.false_eq_true, if_false]
    cases call1 with
    | ok r => simp
    | error e =>
      by_cases ha : e.isAuthFailure = true
      · rcases hr : refresh_token st resp with ⟨st', out⟩
        cases out with
        | ok u => simp [ha, hr]
        | error er => simp [ha, hr]
      · simp [ha]
  · intro r ht hc
    subst hc
    simp [http_get, ht]
  · intro e ht hc ha
    subst hc
    rcases hr : refresh_token st resp with ⟨st', out⟩
    cases out with
    | ok u =>
      refine ⟨?_, fun _ => ⟨?_, ?_⟩⟩ <;> simp [http_get, ht, ha, hr]
    | error er =>
      refine ⟨?_, fun hok => ?_⟩
      · simp [http_get, ht, ha, hr]
      · simp at hok

/-- Witness for C6: with no token held the call fails immediately with zero
attempts; with a token and a first call rejected with `AccessDenied`, a
successful refresh leads to exactly one refresh, two attempts, and the retried
call's failure being what the caller sees. -/
theorem http_get_retry_policy_witness :
    (http_get initialClient (.ok 7) (.ok 8) (.error .backendTimeout) =
      { outcome := .error (.accessDenied "No access token"), state := initialClient,
        calls := 0, refreshes := 0 })
    ∧ ((http_get
          { cookies := [], access_token := some "tok", auth_lost_calls := 0, saved_lats := 0 }
          (.error (.accessDenied "403")) (.error .networkError)
          (.ok "qrc:/html/login_successful.html#access_token=newtok&extra=1")).refreshes = 1
        ∧ (http_get
          { cookies := [], access_token := some "tok", auth_lost_calls := 0, saved_lats := 0 }
          (.error (.accessDenied "403")) (.error .networkError)
          (.ok "qrc:/html/login_successful.html#access_token=newtok&extra=1")).calls = 2
        ∧ (http_get
          { cookies := [], access_token := some "tok", auth_lost_calls := 0, saved_lats := 0 }
          (.error (.accessDenied "403")) (.error .networkError)
          (.ok "qrc:/html/login_successful.html#access_token=newtok&extra=1")).outcome =
            .error .networkError) := by
  constructor
  · exact (http_get_retry_policy initialClient (.ok 7) (.ok 8) (.error .backendTimeout)).1 rfl
  · have h := ((http_get_retry_policy
      { cookies := [], access_token := some "tok", auth_lost_calls := 0, saved_lats := 0 }
      (.error (.accessDenied "403")) (.error .networkError)
      (.ok "qrc:/html/login_successful.html#access_token=newtok&extra=1")).2.2.2
      (.accessDenied "403") rfl rfl rfl)
    have h2 := h.2 rfl
    exact ⟨h.1, h2.1, h2.2⟩

theorem pySplitCh_ne_nil (c : Char) (s : List Char) : pySplitCh c s ≠ [] := by
  cases s with
  | nil => simp [pySplitCh]
  | cons x xs =>
    simp only [pySplitCh]
    by_cases h : x = c
    · simp [h]
    · rw [if_neg h]
      cases hr : pySplitCh c xs <;> simp

theorem pySplitCh_cons_eq (c : Char) (xs : List Char) :
    pySplitCh c (c :: xs) = [] :: pySplitCh c xs := by
  simp [pySplitCh]

theorem pySplitCh_cons_ne (c x : Char) (xs : List Char) (h : x ≠ c) :
    pySplitCh c (x :: xs) =
      (x :: (pySplitCh c xs).headD []) :: (pySplitCh c xs).tail := by
  simp only [pySplitCh, if_neg h]
  cases hr : pySplitCh c xs with
  | nil => exact absurd hr (pySplitCh_ne_nil c xs)
  | cons seg rest => simp

theorem headD_pySplitCh (c : Char) (s : List Char) :
    (pySplitCh c s).headD [] = s.takeWhile (fun x => !(x == c)) := by
  induction s with
  | nil => rfl
  | cons x xs ih =>
    by_cases h : x = c
    · subst h
      rw [pySplitCh_cons_eq]
      simp [List.takeWhile_cons]
    · rw [pySplitCh_cons_ne c x xs h]
      have hb : (x == c) = false := beq_eq_false_iff_ne.mpr h
      rw [List.headD_eq_head?_getD] at ih
      simp [List.takeWhile_cons, hb, ih]

theorem pySplitCh_append_cons (c : Char) (a b : List Char) (h : c ∉ a) :
    pySplitCh c (a ++ c :: b) = a :: pySplitCh c b := by
  induction a with
  | nil => simpa using pySplitCh_cons_eq c b
  | cons x a ih =>
    have hx : x ≠ c := fun he => h (he ▸ List.mem_cons_self x a)
    have h' : c ∉ a := fun hm => h (List.mem_cons_of_mem x hm)
    rw [List.cons_append, pySplitCh_cons_ne c _ _ hx, ih h']
    simp

theorem takeWhile_append_of_all {p : Char → Bool} (a b : List Char)
    (h : ∀ x ∈ a, p x = true) :
    (a ++ b).takeWhile p = a ++ b.takeWhile p := by
  induction a with
  | nil => rfl
  | cons x a ih =>
    rw [List.cons_append, List.takeWhile_cons, h x (List.mem_cons_self x a)]
    rw [ih (fun y hy => h y (List.mem_cons_of_mem x hy))]
    rfl

theorem get0_pySplitCh (c : Char) (s : List Char) :
    (pySplitCh c s).get? 0 = some (s.takeWhile (fun x => !(x == c))) := by
  cases hr : pySplitCh c s with
  | nil => exact absurd hr (pySplitCh_ne_nil c s)
  | cons seg rest =>
    have hh := headD_pySplitCh c s
    rw [hr] at hh
    simp only [List.headD_cons] at hh
    rw [List.get?_cons_zero, hh]

/-- Part of `s` after the first occurrence of `pat`, or `none` when `pat`
does not occur. -/
def afterSubstring (pat : List Char) : List Char → Option (List Char)
  | [] => if pat.isPrefixOf [] then some (([] : List Char).drop pat.length) else none
  | x :: xs =>
    if pat.isPrefixOf (x :: xs) then some ((x :: xs).drop pat.length)
    else afterSubstring pat xs

/-- Modelled from the spec: "the value following `access_token=` up to the
next `&` or the end of the string" (`backend.py` itself slices with
`split("#")[1].split("=")[1].split("&")[0]` instead). -/
def spec_access_token_value (location : String) : Option String :=
  (afterSubstring "access_token=".data location.data).map
    (fun s => String.mk (s.takeWhile (fun ch => !(ch == '&'))))

theorem extract_access_token_wf (pre val rest : List Char)
    (hpre : '#' ∉ pre) (hv1 : '=' ∉ val) (hv2 : '&' ∉ val) (hv3 : '#' ∉ val)
    (hrest : rest = [] ∨ ∃ r, rest = '&' :: r) :
    extract_access_token
      (String.mk (pre ++ '#' :: ("access_token=".data ++ (val ++ rest)))) =
      some (String.mk val) := by
  have hat_hash : ∀ x ∈ ("access_token=".data : List Char), (fun x => !(x == '#')) x = true := by
    decide
  have hat_ne : '=' ∉ ("access_token".data : List Char) := by decide
  have hat_split : ("access_token=".data : List Char) ++
      (val ++ rest.takeWhile (fun x => !(x == '#'))) =
      "access_token".data ++ '=' :: (val ++ rest.takeWhile (fun x => !(x == '#'))) := by
    rw [show ("access_token=".data : List Char) = "access_token".data ++ ['='] from by decide]
    rw [List.append_assoc]
    rfl
  have hv3' : ∀ x ∈ val, (fun x => !(x == '#')) x = true := by
    intro x hx
    have : (x == '#') = false := beq_eq_false_iff_ne.mpr (fun he => hv3 (he ▸ hx))
    simp [this]
  have hv1' : ∀ x ∈ val, (fun x => !(x == '=')) x = true := by
    intro x hx
    have : (x == '=') = false := beq_eq_false_iff_ne.mpr (fun he => hv1 (he ▸ hx))
    simp [this]
  have hv2' : ∀ x ∈ val, (fun x => !(x == '&')) x = true := by
    intro x hx
    have : (x == '&') = false := beq_eq_false_iff_ne.mpr (fun he => hv2 (he ▸ hx))
    simp [this]
  have s1 : (pySplitCh '#'
      (String.mk (pre ++ '#' :: ("access_token=".data ++ (val ++ rest)))).data).get? 1
      = some ("access_token=".data ++ (val ++ rest.takeWhile (fun x => !(x == '#')))) := by
    rw [show (String.mk (pre ++ '#' :: ("access_token=".data ++ (val ++ rest)))).data =
        pre ++ '#' :: ("access_token=".data ++ (val ++ rest)) from rfl]
    rw [pySplitCh_append_cons '#' pre _ hpre, List.get?_cons_succ, get0_pySplitCh]
    rw [takeWhile_append_of_all _ _ hat_hash, takeWhile_append_of_all _ _ hv3']
  have s2 : (pySplitCh '='
      ("access_token=".data ++ (val ++ rest.takeWhile (fun x => !(x == '#'))))).get? 1
      = some (val ++ (rest.takeWhile (fun x => !(x == '#'))).takeWhile
          (fun x => !(x == '='))) := by
    rw [hat_split, pySplitCh_append_cons '=' _ _ hat_ne, List.get?_cons_succ, get0_pySplitCh]
    rw [takeWhile_append_of_all _ _ hv1']
  have hr2 : (((rest.takeWhile (fun x => !(x == '#'))).takeWhile
      (fun x => !(x == '='))).takeWhile (fun x => !(x == '&'))) = [] := by
    rcases hrest with rfl | ⟨r, rfl⟩
    · rfl
    · rw [show (('&' :: r).takeWhile (fun x => !(x == '#'))) =
          '&' :: r.takeWhile (fun x => !(x == '#')) from by
        rw [List.takeWhile_cons]; rfl]
      rw [show (('&' :: r.takeWhile (fun x => !(x == '#'))).takeWhile (fun x => !(x == '='))) =
          '&' :: (r.takeWhile (fun x => !(x == '#'))).takeWhile (fun x => !(x == '=')) from by
        rw [List.takeWhile_cons]; rfl]
      rw [List.takeWhile_cons]
      rfl
  have s3 : (pySplitCh '&' (val ++ (rest.takeWhile (fun x => !(x == '#'))).takeWhile
      (fun x => !(x == '=')))).headD [] = val := by
    rw [headD_pySplitCh, takeWhile_append_of_all _ _ hv2', hr2, List.append_nil]
  simp only [extract_access_token, s1, s2, s3]

theorem authenticate_access_token_after (cookies : List (String × String))
    (resp : Except PyErr String) :
    (authenticate initialClient cookies resp).1.access_token =
      (match resp with
       | .error _ => none
       | .ok location =>
         if pyContains location "access_token" = true
         then extract_access_token location
         else none) := by
  cases resp with
  | error e => rfl
  | ok location =>
    by_cases h1 : pyContains location "access_token" = true
    · cases hx : extract_access_token location with
      | some tok => simp [authenticate, get_access_token, h1, hx]
      | none => simp [authenticate, get_access_token, h1, hx, initialClient]
    · by_cases h2 : pyContains location "error=login_required" = true
      · simp [authenticate, get_access_token, h1, h2, initialClient]
      · simp [authenticate, get_access_token, h1, h2, initialClient]

/-- Counterexample for C7: for the redirect target
`qrc:/html/login_successful.html#expires_in=3600&access_token=TOK` the token
is found, but the client stores `"3600"` — not `"TOK"`, the value following
`access_token=` up to the next `&` or the end of the string. -/
theorem authenticate_token_counterexample :
    is_authenticated (authenticate initialClient []
      (.ok "qrc:/html/login_successful.html#expires_in=3600&access_token=TOK")).1 = true
    ∧ (authenticate initialClient []
      (.ok "qrc:/html/login_successful.html#expires_in=3600&access_token=TOK")).1.access_token
        = some "3600"
    ∧ spec_access_token_value
        "qrc:/html/login_successful.html#expires_in=3600&access_token=TOK" = some "TOK"
    ∧ ("3600" : String) ≠ "TOK" := by
  refine ⟨by decide, by decide, by decide, by decide⟩

/-- **C7** (amended): on a freshly constructed client, `authenticate(C)`
followed by `is_authenticated()` returns true iff the probe reply carries a
`Location` containing `"access_token"` and the fragment slicing succeeds; and
whenever that `Location` is a fragment-free prefix followed by
`#access_token=<value>` with `<value>` free of `'='`/`'&'`/`'#'` and followed
by nothing or by an `&`-separated parameter tail, the stored access token is
exactly `<value>`, the value following `access_token=` up to the next `&` or
the end of the string. -/
theorem authenticate_is_authenticated_amended
    (cookies : List (String × String)) (pre val rest : List Char)
    (hpre : '#' ∉ pre) (hv1 : '=' ∉ val) (hv2 : '&' ∉ val) (hv3 : '#' ∉ val)
    (hrest : rest = [] ∨ ∃ r, rest = '&' :: r) :
    ((authenticate initialClient cookies
        (.ok (String.mk (pre ++ '#' ::
          ("access_token=".data ++ (val ++ rest)))))).1.access_token
      = some (String.mk val)
      ∧ is_authenticated (authenticate initialClient cookies
          (.ok (String.mk (pre ++ '#' ::
            ("access_token=".data ++ (val ++ rest)))))).1 = true)
    ∧ ∀ (cookies' : List (String × String)) (resp' : Except PyErr String),
        is_authenticated (authenticate initialClient cookies' resp').1 = true ↔
          ∃ location, resp' = .ok location ∧
            pyContains location "access_token" = true ∧
            extract_access_token location ≠ none := by
  have hinf : ("access_token".data : List Char) <:+:
      (String.mk (pre ++ '#' :: ("access_token=".data ++ (val ++ rest)))).data := by
    refine ⟨pre ++ ['#'], '=' :: (val ++ rest), ?_⟩
    show (pre ++ ['#']) ++ "access_token".data ++ ('=' :: (val ++ rest)) =
      pre ++ '#' :: ("access_token=".data ++ (val ++ rest))
    rw [List.append_assoc, List.append_assoc, List.singleton_append]
    rw [show ("access_token=".data : List Char) = "access_token".data ++ ['='] from by decide]
    rw [List.append_assoc]
    rfl
  have hcont : pyContains
      (String.mk (pre ++ '#' :: ("access_token=".data ++ (val ++ rest))))
      "access_token" = true :=
    decide_eq_true hinf
  have hext := extract_access_token_wf pre val rest hpre hv1 hv2 hv3 hrest
  have hiff : ∀ (cookies' : List (String × String)) (resp' : Except PyErr String),
      is_authenticated (authenticate initialClient cookies' resp').1 = true ↔
        ∃ location, resp' = .ok location ∧
          pyContains location "access_token" = true ∧
          extract_access_token location ≠ none := by
    intro cookies' resp'
    rw [is_authenticated, authenticate_access_token_after]
    cases resp' with
    | error e => simp
    | ok location =>
      by_cases h1 : pyContains location "access_token" = true
      · simp only [h1, if_true]
        rw [Option.isSome_iff_ne_none]
        simp [h1]
      · simp [h1]
  refine ⟨⟨?_, ?_⟩, hiff⟩
  · rw [authenticate_access_token_after]
    simp only [hcont, if_true]
    exact hext
  · exact (hiff cookies _).mpr ⟨_, rfl, hcont, by rw [hext]; exact Option.some_ne_none _⟩

/-- Witness for C7 (amended): a well-formed redirect of the shape the backend
documents stores exactly the fragment value `TOK123`. -/
theorem authenticate_is_authenticated_amended_witness :
    (authenticate initialClient []
      (.ok (String.mk ("qrc:/html/login_successful.html".data ++ '#' ::
        ("access_token=".data ++
          ("TOK123".data ++ ('&' :: "expires_in=3600".data))))))).1.access_token
      = some (String.mk "TOK123".data) :=
  (authenticate_is_authenticated_amended [] "qrc:/html/login_successful.html".data
    "TOK123".data ('&' :: "expires_in=3600".data)
    (by decide) (by decide) (by decide) (by decide) (Or.inr ⟨_, rfl⟩)).1.1

end backend

namespace plugin

/-- Slice of one entitlement from `get_entitlements` as used by the inner
helper `get_game_id` of `_get_owned_offers`: the `originOfferId` and
`product.gameProductUser.ownershipMethods` fields. -/
structure Entitlement where
  originOfferId : String
  ownershipMethods : List String
deriving DecidableEq

/-- Inner helper `get_game_id` of `OriginPlugin._get_owned_offers`: appends
`@steam`/`@epic` to the offer id according to the first ownership method and
nothing otherwise.  `none` models the `IndexError` raised on an empty
`ownershipMethods` list. -/
def get_game_id (ent : Entitlement) : Option String :=
  match ent.ownershipMethods.head? with
  | none => none
  | some external_type =>
    if external_type = "STEAM" then some (ent.originOfferId ++ "@steam")
    else if external_type = "EPIC" then some (ent.originOfferId ++ "@epic")
    else some ent.originOfferId

/-- Static method `OriginPlugin._offer_id_from_game_id`:
`game_id.split('@')[0]`. -/
def offer_id_from_game_id (game_id : String) : String :=
  String.mk ((pySplitCh '@' game_id.data).headD [])

/-- Counterexample for C8: the entitlement with offer id `OFR@1` (an offer id
that itself contains `'@'`) and ownership methods `["STEAM"]` derives game id
`OFR@1@steam`, but stripping at the first `'@'` yields `OFR`, not the original
offer id. -/
theorem game_id_roundtrip_counterexample :
    get_game_id { originOfferId := "OFR@1", ownershipMethods := ["STEAM"] } =
      some "OFR@1@steam"
    ∧ offer_id_from_game_id "OFR@1@steam" = "OFR"
    ∧ ("OFR" : String) ≠ "OFR@1" := by
  refine ⟨by decide, by decide, by decide⟩

theorem takeWhile_all (p : Char → Bool) (l : List Char) (h : ∀ x ∈ l, p x = true) :
    l.takeWhile p = l := by
  have := backend.takeWhile_append_of_all l [] h
  simpa using this

theorem strip_at_append (offer_id : String) (suffix : List Char)
    (hat : '@' ∉ offer_id.data) :
    String.mk ((pySplitCh '@' (offer_id.data ++ '@' :: suffix)).headD []) = offer_id := by
  rw [backend.headD_pySplitCh]
  have hall : ∀ x ∈ offer_id.data, (fun x => !(x == '@')) x = true := by
    intro x hx
    have : (x == '@') = false := beq_eq_false_iff_ne.mpr (fun he => hat (he ▸ hx))
    simp [this]
  rw [backend.takeWhile_append_of_all _ _ hall]
  rw [show (('@' :: suffix).takeWhile (fun x => !(x == '@'))) = [] from by
    rw [List.takeWhile_cons]; rfl]
  rw [List.append_nil]

/-- **C8** (amended): for every entitlement whose offer id contains no `'@'`,
the derived game id is the offer id plus `@steam` for a first ownership method
`STEAM`, `@epic` for `EPIC`, and no suffix otherwise, and
`_offer_id_from_game_id` (the part before the first `'@'`) always strips it
back to exactly the original offer id. -/
theorem game_id_roundtrip_amended (offer_id external_type : String) (ms : List String)
    (hat : '@' ∉ offer_id.data) :
    (external_type = "STEAM" →
      get_game_id { originOfferId := offer_id, ownershipMethods := external_type :: ms } =
        some (offer_id ++ "@steam"))
    ∧ (external_type = "EPIC" →
      get_game_id { originOfferId := offer_id, ownershipMethods := external_type :: ms } =
        some (offer_id ++ "@epic"))
    ∧ (external_type ≠ "STEAM" → external_type ≠ "EPIC" →
      get_game_id { originOfferId := offer_id, ownershipMethods := external_type :: ms } =
        some offer_id)
    ∧ (∀ gid,
        get_game_id { originOfferId := offer_id, ownershipMethods := external_type :: ms } =
          some gid →
        offer_id_from_game_id gid = offer_id) := by
  refine ⟨?_, ?_, ?_, ?_⟩
  · intro h
    simp [get_game_id, h]
  · intro h
    by_cases hs : external_type = "STEAM"
    · exact absurd (hs.symm.trans h) (by decide)
    · simp [get_game_id, hs, h]
  · intro h1 h2
    simp [get_game_id, h1, h2]
  · intro gid hgid
    by_cases hs : external_type = "STEAM"
    · have : gid = offer_id ++ "@steam" := by
        rw [hs] at hgid
        simpa [get_game_id] using hgid.symm
      subst this
      rw [offer_id_from_game_id]
      rw [show (offer_id ++ "@steam").data = offer_id.data ++ '@' :: "steam".data from by
        rw [String.data_append]]
      exact strip_at_append offer_id _ hat
    · by_cases he : external_type = "EPIC"
      · have : gid = offer_id ++ "@epic" := by
          rw [he] at hgid
          simpa [get_game_id, hs] using hgid.symm
        subst this
        rw [offer_id_from_game_id]
        rw [show (offer_id ++ "@epic").data = offer_id.data ++ '@' :: "epic".data from by
          rw [String.data_append]]
        exact strip_at_append offer_id _ hat
      · have : gid = offer_id := by
          simpa [get_game_id, hs, he] using hgid.symm
        rw [this]
        rw [offer_id_from_game_id, backend.headD_pySplitCh]
        have hall : ∀ x ∈ offer_id.data, (fun x => !(x == '@')) x = true := by
          intro x hx
          have : (x == '@') = false := beq_eq_false_iff_ne.mpr (fun h3 => hat (h3 ▸ hx))
          simp [this]
        rw [takeWhile_all _ _ hall]

/-- Witness for C8: the spec's entitlement
`{offerId: "OFR123", ownershipMethods: ["STEAM"]}` resolves to game id
`OFR123@steam`, and stripping the suffix yields back `OFR123`. -/
theorem game_id_roundtrip_amended_witness :
    get_game_id { originOfferId := "OFR123", ownershipMethods := ["STEAM"] } =
      some ("OFR123" ++ "@steam")
    ∧ offer_id_from_game_id "OFR123@steam" = "OFR123" := by
  have h := game_id_roundtrip_amended "OFR123" "STEAM" [] (by decide)
  refine ⟨h.1 rfl, ?_⟩
  have h2 := h.2.2.2 "OFR123@steam" (by rw [h.1 rfl]; decide)
  exact h2

end plugin

namespace plugin

/-- One raw entry of the persisted `game_time` cache as handed to
`game_time_decoder`: `none` models a Python-falsy entry (`{}` or `null`); a
truthy entry carries the `game_id`, `time_played` and optional
`last_played_time` fields. -/
structure GameTimeEntry where
  game_id : String
  time_played : Nat
  last_played_time : Option Int
deriving DecidableEq

/-- List `outdated_keys` of `game_time_decoder`: for every cache key
containing `'@'`, its part before the first `'@'`. -/
def outdated_keys (cache : List (String × Option GameTimeEntry)) : List String :=
  ((cache.map Prod.fst).filter (fun k => k.data.contains '@')).map
    (fun k => String.mk ((pySplitCh '@' k.data).headD []))

/-- Inner helper `game_time_decoder` of `OriginPlugin.handshake_complete`:
pops every outdated key from the cache, then decodes the remaining entries,
keeping only truthy entries with truthy keys. -/
def game_time_decoder (cache : List (String × Option GameTimeEntry)) :
    List (String × GameTime) :=
  (cache.filter (fun p => !((outdated_keys cache).contains p.1))).filterMap (fun p =>
    match p.2 with
    | none => none
    | some e =>
      if p.1.isEmpty then none
      else some (p.1, { game_id := e.game_id, time_played := e.time_played,
                        last_played_time := e.last_played_time }))

/-- Counterexample for C9: a cache whose only key is the bare offer id `OFR9`
(a pre-migration-shaped key, no `'@'`) is not purged at all — the decoded
result still contains the entry under that bare key. -/
theorem game_time_decoder_counterexample :
    game_time_decoder
      [("OFR9", some { game_id := "OFR9", time_played := 5, last_played_time := none })] =
      [("OFR9", { game_id := "OFR9", time_played := 5, last_played_time := none })] := by
  decide

theorem outdated_keys_contains (cache : List (String × Option GameTimeEntry)) (k : String) :
    (outdated_keys cache).contains k = true ↔
      ∃ k' ∈ cache.map Prod.fst, k'.data.contains '@' = true ∧
        String.mk ((pySplitCh '@' k'.data).headD []) = k := by
  rw [show (outdated_keys cache).contains k = (outdated_keys cache).elem k from rfl,
    List.elem_iff, outdated_keys]
  constructor
  · intro hm
    rcases List.mem_map.mp hm with ⟨k', hk', rfl⟩
    rcases List.mem_filter.mp hk' with ⟨hmem, hat⟩
    exact ⟨k', hmem, hat, rfl⟩
  · rintro ⟨k', hmem, hat, rfl⟩
    exact List.mem_map.mpr ⟨k', List.mem_filter.mpr ⟨hmem, hat⟩, rfl⟩

/-- **C9** (amended): `game_time_decoder` purges a key exactly when some cache
key containing `'@'` has it as its part before the first `'@'` (so a bare
legacy offer-id key is dropped only when its migrated `@`-suffixed twin is
also present), and the decoded result contains precisely the surviving
entries that are truthy and have a non-empty key, decoded field for field. -/
theorem game_time_decoder_membership (cache : List (String × Option GameTimeEntry))
    (k : String) (gt : GameTime) :
    (k, gt) ∈ game_time_decoder cache ↔
      ∃ e : GameTimeEntry, (k, some e) ∈ cache ∧ k ≠ "" ∧
        gt = { game_id := e.game_id, time_played := e.time_played,
               last_played_time := e.last_played_time } ∧
        ¬ ∃ k' ∈ cache.map Prod.fst, k'.data.contains '@' = true ∧
            String.mk ((pySplitCh '@' k'.data).headD []) = k := by
  rw [game_time_decoder]
  constructor
  · intro hm
    rcases List.mem_filterMap.mp hm with ⟨p, hp, hfp⟩
    rcases List.mem_filter.mp hp with ⟨hpc, hno⟩
    rcases p with ⟨pk, pe⟩
    have hno' : (!(outdated_keys cache).contains pk) = true := hno
    cases pe with
    | none => simp at hfp
    | some e =>
      have hfp' : (if pk.isEmpty = true then none
          else some (pk, ({ game_id := e.game_id, time_played := e.time_played,
                            last_played_time := e.last_played_time } : GameTime))) =
          some (k, gt) := hfp
      by_cases hke : pk.isEmpty = true
      · rw [if_pos hke] at hfp'
        cases hfp'
      · rw [if_neg hke] at hfp'
        have hpair := Option.some.inj hfp'
        have hpk : pk = k := congrArg Prod.fst hpair
        subst hpk
        refine ⟨e, hpc, ?_, (congrArg Prod.snd hpair).symm, ?_⟩
        · intro hempty
          exact hke (by rw [hempty]; rfl)
        · intro hex
          have hcon := outdated_keys_contains cache pk |>.mpr hex
          rw [hcon] at hno'
          cases hno'
  · rintro ⟨e, hmem, hne, rfl, hnot⟩
    apply List.mem_filterMap.mpr
    refine ⟨(k, some e), List.mem_filter.mpr ⟨hmem, ?_⟩, ?_⟩
    · have hcf : (outdated_keys cache).contains k = false := by
        cases hc : (outdated_keys cache).contains k with
        | false => rfl
        | true => exact absurd (outdated_keys_contains cache k |>.mp hc) hnot
      show (!(outdated_keys cache).contains k) = true
      rw [hcf]
      rfl
    · have hke : k.isEmpty = false := by
        cases hk : k.isEmpty with
        | false => rfl
        | true => exact absurd ((String.isEmpty_iff k).mp hk) hne
      show (if k.isEmpty = true then none
          else some (k, ({ game_id := e.game_id, time_played := e.time_played,
                           last_played_time := e.last_played_time } : GameTime))) =
          some (k, ({ game_id := e.game_id, time_played := e.time_played,
                      last_played_time := e.last_played_time } : GameTime))
      rw [if_neg (by simp [hke])]

end plugin

namespace plugin

/-- The `legacyOffers` element of a `get_offer` response.  Its many fields are
opaque to `_get_offers` and collapsed into `fields`; `gameSlug` is the field
that `_get_offers` copies over from the companion `gameProducts` item. -/
structure LegacyOffer where
  fields : List (String × String)
  gameSlug : Option String := none
deriving DecidableEq

/-- The `gameProducts` item of a `get_offer` response, as used by
`_get_offers`: its reported `originOfferId` (the cache key) and `gameSlug`. -/
structure GameProduct where
  originOfferId : String
  gameSlug : String
deriving DecidableEq

/-- Result of one `OriginPlugin._get_offers` call: the returned offers dict,
the `_offer_id_cache` afterwards, and the ids requested from the backend. -/
structure OffersResult where
  offers : List (String × LegacyOffer)
  offer_id_cache : List (String × LegacyOffer)
  fetched : List String
deriving DecidableEq

/-- Body of the `for offer in new_offers` loop of `_get_offers`: an exception
is logged and skipped, a response with a falsy part is skipped, and otherwise
the offer — with the product's `gameSlug` copied in — is stored in the offers
dict and the cache under the response's own `originOfferId`. -/
def merge_offer (acc : OffersResult)
    (r : Except Unit (Option LegacyOffer × Option GameProduct)) : OffersResult :=
  match r with
  | .error _ => acc
  | .ok (some l, some p) =>
    { offers := dictSet acc.offers p.originOfferId { l with gameSlug := some p.gameSlug },
      offer_id_cache :=
        dictSet acc.offer_id_cache p.originOfferId { l with gameSlug := some p.gameSlug },
      fetched := acc.fetched }
  | .ok _ => acc

/-- Method `OriginPlugin._get_offers(offer_ids)`: answers cached ids from
`_offer_id_cache`, requests every missing id from the backend
(`backend_get_offer` is the oracle for `OriginBackendClient.get_offer`), and
merges the per-id results. -/
def get_offers (offer_id_cache : List (String × LegacyOffer))
    (backend_get_offer : String → Except Unit (Option LegacyOffer × Option GameProduct))
    (offer_ids : List String) : OffersResult :=
  (offer_ids.filter (fun i => (dictGet offer_id_cache i).isNone)).foldl
    (fun acc offer_id => merge_offer acc (backend_get_offer offer_id))
    { offers := offer_ids.filterMap (fun i => (dictGet offer_id_cache i).map (fun o => (i, o))),
      offer_id_cache := offer_id_cache,
      fetched := offer_ids.filter (fun i => (dictGet offer_id_cache i).isNone) }

/-- Counterexample for C4: when the backend reports offer id `B` for the
requested id `A`, the second `_get_offers(["A"])` call still finds `A` missing
from the cache and fetches it again. -/
def backend_asym : String → Except Unit (Option LegacyOffer × Option GameProduct) :=
  fun _ => .ok (some { fields := [("displayName", "Some Game")] },
                some { originOfferId := "B", gameSlug := "some-game" })

theorem get_offers_counterexample :
    (get_offers [] backend_asym ["A"]).fetched = ["A"]
    ∧ (get_offers (get_offers [] backend_asym ["A"]).offer_id_cache
        backend_asym ["A"]).fetched = ["A"] := by
  refine ⟨by decide, by decide⟩

theorem merge_offer_fetched (acc : OffersResult)
    (r : Except Unit (Option LegacyOffer × Option GameProduct)) :
    (merge_offer acc r).fetched = acc.fetched := by
  rcases r with e | ⟨l, p⟩
  · rfl
  · rcases l with - | l <;> rcases p with - | p <;> rfl

theorem foldl_merge_fetched
    (backend_get_offer : String → Except Unit (Option LegacyOffer × Option GameProduct))
    (ms : List String) (acc : OffersResult) :
    ((ms.foldl (fun a i => merge_offer a (backend_get_offer i)) acc)).fetched =
      acc.fetched := by
  induction ms generalizing acc with
  | nil => rfl
  | cons m ms ih =>
    rw [List.foldl_cons, ih, merge_offer_fetched]

theorem merge_offer_cache_isSome (acc : OffersResult)
    (r : Except Unit (Option LegacyOffer × Option GameProduct)) (i : String)
    (h : (dictGet acc.offer_id_cache i).isSome = true) :
    (dictGet (merge_offer acc r).offer_id_cache i).isSome = true := by
  rcases r with e | ⟨l, p⟩
  · exact h
  · rcases l with - | l
    · exact h
    · rcases p with - | p
      · exact h
      · show (dictGet (dictSet acc.offer_id_cache p.originOfferId _) i).isSome = true
        rw [dictGet_dictSet]
        by_cases hi : i = p.originOfferId
        · rw [if_pos hi]
          rfl
        · rw [if_neg hi]
          exact h

theorem foldl_merge_cache_isSome
    (backend_get_offer : String → Except Unit (Option LegacyOffer × Option GameProduct))
    (ms : List String) (acc : OffersResult) (i : String)
    (h : (dictGet acc.offer_id_cache i).isSome = true) :
    (dictGet ((ms.foldl (fun a j => merge_offer a (backend_get_offer j)) acc)).offer_id_cache
      i).isSome = true := by
  induction ms generalizing acc with
  | nil => exact h
  | cons m ms ih =>
    rw [List.foldl_cons]
    exact ih _ (merge_offer_cache_isSome acc _ i h)

theorem foldl_merge_cache_hits
    (backend_get_offer : String → Except Unit (Option LegacyOffer × Option GameProduct))
    (ms : List String) (acc : OffersResult) (i : String) (hi : i ∈ ms)
    (hsym : ∃ l p, backend_get_offer i = .ok (some l, some p) ∧ p.originOfferId = i) :
    (dictGet ((ms.foldl (fun a j => merge_offer a (backend_get_offer j)) acc)).offer_id_cache
      i).isSome = true := by
  induction ms generalizing acc with
  | nil => cases hi
  | cons m ms ih =>
    rw [List.foldl_cons]
    rcases List.mem_cons.mp hi with rfl | hmem
    · rcases hsym with ⟨l, p, hb, hp⟩
      apply foldl_merge_cache_isSome
      rw [show merge_offer acc (backend_get_offer i) =
          { offers := dictSet acc.offers p.originOfferId
              { l with gameSlug := some p.gameSlug },
            offer_id_cache := dictSet acc.offer_id_cache p.originOfferId
              { l with gameSlug := some p.gameSlug },
            fetched := acc.fetched } from by rw [hb]; rfl]
      show (dictGet (dictSet acc.offer_id_cache p.originOfferId _) i).isSome = true
      rw [dictGet_dictSet, hp, if_pos rfl]
      rfl
    · exact ih _ hmem

/-- **C4** (amended): if the backend answers every requested id with a truthy
two-part offer whose reported `originOfferId` equals the requested id, then
calling `_get_offers` twice in succession with the same ids performs remote
fetches only during the first call — the second call finds every id in the
cache and requests nothing.  (Without that symmetry the cache key is the
response's own reported offer id and a requested id can stay missing, see the
counterexample.) -/
theorem get_offers_idempotent (offer_id_cache : List (String × LegacyOffer))
    (backend_get_offer : String → Except Unit (Option LegacyOffer × Option GameProduct))
    (offer_ids : List String)
    (hsym : ∀ i ∈ offer_ids, ∃ l p,
      backend_get_offer i = .ok (some l, some p) ∧ p.originOfferId = i) :
    (get_offers (get_offers offer_id_cache backend_get_offer offer_ids).offer_id_cache
      backend_get_offer offer_ids).fetched = [] := by
  have hall : ∀ i ∈ offer_ids,
      (dictGet (get_offers offer_id_cache backend_get_offer offer_ids).offer_id_cache
        i).isSome = true := by
    intro i hi
    rw [get_offers]
    by_cases hc : (dictGet offer_id_cache i).isSome = true
    · exact foldl_merge_cache_isSome _ _ _ i hc
    · apply foldl_merge_cache_hits _ _ _ i ?_ (hsym i hi)
      apply List.mem_filter.mpr
      refine ⟨hi, ?_⟩
      cases ho : dictGet offer_id_cache i with
      | none => rfl
      | some o => exact absurd (by rw [ho]; rfl) hc
  have hmiss : offer_ids.filter (fun i =>
      (dictGet (get_offers offer_id_cache backend_get_offer offer_ids).offer_id_cache
        i).isNone) = [] := by
    rw [List.filter_eq_nil_iff]
    intro i hi hnone
    have hs := hall i hi
    rw [Option.isNone_iff_eq_none.mp hnone] at hs
    cases hs
  rw [show get_offers
      (get_offers offer_id_cache backend_get_offer offer_ids).offer_id_cache
      backend_get_offer offer_ids =
    (offer_ids.filter (fun i =>
        (dictGet (get_offers offer_id_cache backend_get_offer offer_ids).offer_id_cache
          i).isNone)).foldl
      (fun acc offer_id => merge_offer acc (backend_get_offer offer_id))
      { offers := offer_ids.filterMap (fun i =>
          (dictGet (get_offers offer_id_cache backend_get_offer offer_ids).offer_id_cache
            i).map (fun o => (i, o))),
        offer_id_cache :=
          (get_offers offer_id_cache backend_get_offer offer_ids).offer_id_cache,
        fetched := offer_ids.filter (fun i =>
          (dictGet (get_offers offer_id_cache backend_get_offer offer_ids).offer_id_cache
            i).isNone) } from rfl]
  rw [hmiss]
  rfl

/-- Witness for C4 (amended): a backend that echoes the requested id back as
`originOfferId` makes the second `_get_offers(["A", "B"])` call fetch
nothing. -/
def backend_echo : String → Except Unit (Option LegacyOffer × Option GameProduct) :=
  fun i => .ok (some { fields := [("displayName", "Echo Game")] },
                some { originOfferId := i, gameSlug := "echo-game" })

theorem get_offers_idempotent_witness :
    (get_offers (get_offers [] backend_echo ["A", "B"]).offer_id_cache
      backend_echo ["A", "B"]).fetched = [] :=
  get_offers_idempotent [] backend_echo ["A", "B"]
    (fun i _ => ⟨{ fields := [("displayName", "Echo Game")] },
      { originOfferId := i, gameSlug := "echo-game" }, rfl, rfl⟩)

end plugin

namespace backend

/-- A parsed naive `datetime` as produced by
`datetime.strptime(s, "%Y-%m-%dT%H:%M:%S.%fZ")` (no timezone attached). -/
structure NaiveDatetime where
  year : Nat
  month : Nat
  day : Nat
  hour : Nat
  minute : Nat
  second : Nat
  microsecond : Nat
deriving DecidableEq

/-- Numeric value of a nonempty all-digit character list, else `none`. -/
def parseDigits (s : List Char) : Option Nat :=
  if s.isEmpty then none
  else if s.all (fun c => c.isDigit) then
    some (s.foldl (fun n c => n * 10 + (c.toNat - '0'.toNat)) 0)
  else none

/-- Contract of `datetime.strptime(s, "%Y-%m-%dT%H:%M:%S.%fZ")` (stdlib,
modelled): a four-digit year, one-or-two-digit month/day/hour/minute/second in
their calendar ranges, a one-to-six-digit fractional part right-padded to
microseconds, and the literal separators `-`, `T`, `:`, `.`, trailing `Z`.
`none` models the `ValueError` on any mismatch. -/
def strptime_iso8601 (s : String) : Option NaiveDatetime :=
  match pySplitCh 'T' s.data with
  | [datePart, timePart] =>
    match pySplitCh '-' datePart with
    | [ys, ms, ds] =>
      match timePart.getLast? with
      | some 'Z' =>
        match pySplitCh '.' timePart.dropLast with
        | [hms, frac] =>
          match pySplitCh ':' hms with
          | [hs, mins, ss] =>
            match parseDigits ys, parseDigits ms, parseDigits ds,
                parseDigits hs, parseDigits mins, parseDigits ss,
                parseDigits frac with
            | some y, some mo, some d, some h, some mi, some sec, some f =>
              if ys.length = 4 ∧ ms.length ≤ 2 ∧ ds.length ≤ 2 ∧
                  hs.length ≤ 2 ∧ mins.length ≤ 2 ∧ ss.length ≤ 2 ∧
                  frac.length ≤ 6 ∧
                  1 ≤ mo ∧ mo ≤ 12 ∧ 1 ≤ d ∧ d ≤ 31 ∧
                  h ≤ 23 ∧ mi ≤ 59 ∧ sec ≤ 61 then
                some { year := y, month := mo, day := d, hour := h,
                       minute := mi, second := sec,
                       microsecond := f * 10 ^ (6 - frac.length) }
              else none
            | _, _, _, _, _, _, _ => none
          | _ => none
        | _ => none
      | _ => none
    | _ => none
  | _ => none

/-- Days between 1970-01-01 and the given civil date (proleptic Gregorian),
after Howard Hinnant's `days_from_civil` algorithm. -/
def days_from_civil (y m d : Nat) : Int :=
  let y' := if m ≤ 2 then y - 1 else y
  let era := y' / 400
  let yoe := y' % 400
  let doy := (153 * (if 2 < m then m - 3 else m + 9) + 2) / 5 + (d - 1)
  let doe := yoe * 365 + yoe / 4 - yoe / 100 + doy
  (era * 146097 + doe : Int) - 719468

/-- Seconds between the Unix epoch and the given naive datetime read as UTC
(microseconds not included). -/
def utcEpochSeconds (dt : NaiveDatetime) : Int :=
  days_from_civil dt.year dt.month dt.day * 86400 +
    dt.hour * 3600 + dt.minute * 60 + dt.second

/-- Python `int(dt.timestamp())` for a naive `dt`: `timestamp()` interprets a
naive datetime in the machine's local timezone — modelled by its fixed UTC
offset `tz_offset_seconds` — and `int()` truncates toward zero. -/
def py_int_timestamp (tz_offset_seconds : Int) (dt : NaiveDatetime) : Int :=
  (((utcEpochSeconds dt - tz_offset_seconds) * 1000000 + dt.microsecond)).tdiv 1000000

/-- One achievement entry of the backend response:
`{id, name, awardCount, date}`. -/
structure AchEntry where
  id : String
  name : String
  awardCount : Int
  date : String
deriving DecidableEq

/-- Record `galaxy.api.types.Achievement` as built by `get_achievements`. -/
structure Achievement where
  achievement_id : String
  achievement_name : String
  unlock_time : Int
deriving DecidableEq

/-- Inner `parser` of `OriginBackendClient.get_achievements`, run on a machine
with local UTC offset `tz_offset_seconds`: keeps exactly the entries with
`awardCount == 1`, each with its id, its name, and
`int(datetime.strptime(date, "%Y-%m-%dT%H:%M:%S.%fZ").timestamp())` as unlock
time.  `.error ()` models the `ValueError` of a malformed date. -/
def parse_achievements (tz_offset_seconds : Int) :
    List AchEntry → Except Unit (List Achievement)
  | [] => .ok []
  | a :: rest =>
    if a.awardCount = 1 then
      match strptime_iso8601 a.date with
      | none => .error ()
      | some dt =>
        match parse_achievements tz_offset_seconds rest with
        | .error e => .error e
        | .ok l => .ok ({ achievement_id := a.id, achievement_name := a.name,
                          unlock_time := py_int_timestamp tz_offset_seconds dt } :: l)
    else parse_achievements tz_offset_seconds rest

/-- Method `OriginBackendClient.get_achievements`: parses every achievement
set of the response with `parser`; a failing set fails the whole call. -/
def get_achievements (tz_offset_seconds : Int) :
    List (String × List AchEntry) → Except Unit (List (String × List Achievement))
  | [] => .ok []
  | (set_id, entries) :: rest =>
    match parse_achievements tz_offset_seconds entries with
    | .error e => .error e
    | .ok l =>
      match get_achievements tz_offset_seconds rest with
      | .error e => .error e
      | .ok r => .ok ((set_id, l) :: r)

/-- Modelled from the spec: the Unix timestamp of the instant denoted by an
ISO-8601 date with fractional seconds and trailing `Z`, i.e. read as UTC. -/
def spec_iso_utc_unix (date : String) : Option Int :=
  (strptime_iso8601 date).map (py_int_timestamp 0)

/-- **C3**: evaluation of `get_achievements` at the spec's example.  On a
machine whose local UTC offset is zero the code matches the claim (awardCount
1 kept with the UTC Unix timestamp 1709222423, awardCount 0 excluded), but on
a machine one hour east of UTC (offset +3600) the same entry unlocks at
1709218823 — not the Unix timestamp of the instant 2024-02-29T16:00:23.000Z —
because `datetime.timestamp()` reads the naive parsed datetime as local
time. -/
theorem get_achievements_timestamp_bug :
    get_achievements 0
      [("set1",
        [{ id := "a1", name := "n1", awardCount := 1,
           date := "2024-02-29T16:00:23.000Z" },
         { id := "a0", name := "n0", awardCount := 0,
           date := "2024-02-29T16:00:23.000Z" }])] =
      .ok [("set1", [{ achievement_id := "a1", achievement_name := "n1",
                       unlock_time := 1709222423 }])]
    ∧ spec_iso_utc_unix "2024-02-29T16:00:23.000Z" = some 1709222423
    ∧ get_achievements 3600
      [("set1",
        [{ id := "a1", name := "n1", awardCount := 1,
           date := "2024-02-29T16:00:23.000Z" }])] =
      .ok [("set1", [{ achievement_id := "a1", achievement_name := "n1",
                       unlock_time := 1709218823 }])]
    ∧ (1709218823 : Int) ≠ 1709222423 := by
  refine ⟨rfl, by decide, rfl, by decide⟩

end backend
